import Mathlib

/-!
Shallow embedding of the resilient fetch pipeline of `web_farm`
(request engine, rate limiters, retry/backoff, block classifier,
pagination runtime, dual-write SQLite store), together with theorems
settling the frozen specification claims.

Conventions used throughout:
- Python floats (times, delays, token counts) are modelled as `ℚ`.
- HTTP status codes are `ℤ`.
- Text-marker searches of `block_detect.classify_block` and
  `http_engine._block_hint` (fixed phrase lists such as "g-recaptcha",
  "just a moment", "access denied") are abstracted into Boolean marker
  fields of the response value; the decision logic over those markers is
  translated verbatim.
- SQLite tables are modelled as in-memory values: the raw log as a list
  (insert-only in the source), the unique view as a map keyed by
  `item_key` (its PRIMARY KEY), the checkpoint and blocked-event tables
  as lists.
-/

/-- Model of decoded JSON values (`json.loads` results). -/
inductive J where
  | null : J
  | b : Bool → J
  | s : String → J
  | num : ℚ → J
  | arr : List J → J
  | obj : List (String × J) → J

/-- First value bound to a key in a JSON object (python `data.get(k)`;
python dicts have unique keys, so an association list lookup is faithful). -/
def lookupJ (kvs : List (String × J)) (k : String) : Option J :=
  match kvs with
  | [] => none
  | (k1, v) :: rest => if k1 == k then some v else lookupJ rest k

/-- Whether one character list occurs at the start of another. -/
def startsWithL : List Char → List Char → Bool
  | [], _ => true
  | _ :: _, [] => false
  | a :: as, b :: bs => a == b && startsWithL as bs

/-- Whether `needle` occurs as a contiguous run inside `hay`
(python `needle in hay` on strings). -/
def charRunIn (needle : List Char) : List Char → Bool
  | [] => needle.isEmpty
  | c :: t => startsWithL needle (c :: t) || charRunIn needle t

/-- Substring test on strings (python `needle in hay`). -/
def strHas (needle hay : String) : Bool :=
  charRunIn needle.toList hay.toList

/-- Translation of `resp_read.detect_soft_error`: application-level failure
detection inside an HTTP-200 JSON body.  Returns the diagnostic string of the
first matching rule, in the source's rule order. -/
def detect_soft_error (data : J) : Option String :=
  match data with
  | J.obj kvs =>
    let e1 : Option String :=
      match lookupJ kvs "error" with
      | some (J.s v) => if v.trim ≠ "" then some ("error: " ++ v.trim) else none
      | some (J.obj l) => if !l.isEmpty then some "error: non-empty" else none
      | some (J.arr l) => if !l.isEmpty then some "error: non-empty" else none
      | _ => none
    let e2 : Option String :=
      match lookupJ kvs "errors" with
      | some (J.arr l) => if !l.isEmpty then some "errors: non-empty list" else none
      | some (J.obj l) => if !l.isEmpty then some "errors: non-empty dict" else none
      | _ => none
    let e3 : Option String :=
      match lookupJ kvs "success" with
      | some (J.b false) => some "success=false"
      | some (J.s v) =>
        if ["false", "0", "no", "fail", "failed"].contains v.trim.toLower
        then some ("success=" ++ v) else none
      | _ => none
    let e4 : Option String :=
      match lookupJ kvs "status" with
      | some (J.s v) =>
        if ["error", "fail", "failed"].contains v.trim.toLower
        then some ("status=" ++ v.trim) else none
      | _ => none
    let e5 : Option String :=
      match lookupJ kvs "message" with
      | some (J.s v) =>
        let m := v.trim.toLower
        if m.startsWith "error" || strHas "permission denied" m || strHas "unauthorized" m
        then some ("message=" ++ v.trim) else none
      | _ => none
    (((e1.orElse fun _ => e2).orElse fun _ => e3).orElse fun _ => e4).orElse fun _ => e5
  | _ => none

/-- Retry-After header, abstracted past string parsing: either absent, an
integer/float number of seconds, or an HTTP date whose distance from "now"
is `delta` seconds (`http_engine._retry_after_seconds` parses both forms). -/
inductive RAHeader where
  | absent : RAHeader
  | seconds : ℚ → RAHeader
  | httpDate : (delta : ℚ) → RAHeader

/-- Translation of `http_engine._retry_after_seconds`: a positive parsed
value, and `none` for an absent header or a non-positive value. -/
def retry_after_seconds : RAHeader → Option ℚ
  | RAHeader.absent => none
  | RAHeader.seconds q => if 0 < q then some q else none
  | RAHeader.httpDate d => if 0 < d then some d else none

/-- Response body as seen by `resp_read`: binary content, or text with its
"looks like JSON" verdict (`looks_like_json` over content type and first
character) and its `json.loads` result (`none` when decoding fails). -/
inductive Body where
  | binary : Body
  | txt : (raw : String) → (looksLikeJson : Bool) → (decoded : Option J) → Body

/-- Response value shared by the engine, the classifier and the runtime.
Header and body-phrase searches are abstracted into the Boolean marker
fields (see module header). -/
structure Resp where
  status : ℤ
  retryAfter : RAHeader := RAHeader.absent
  hdr_cf_ray : Bool := false
  hdr_server_cloudflare : Bool := false
  txt_cf_markers : Bool := false
  txt_js_challenge : Bool := false
  txt_captcha : Bool := false
  txt_too_many : Bool := false
  txt_auth : Bool := false
  txt_denied : Bool := false
  body : Body := Body.txt "" false none

/-- Translation of `block_detect.classify_block` restricted to its hint
computation (the returned event additionally carries url/headers/snippet).
Marker booleans stand for the source's phrase searches:
`txt_cf_markers` for "__cf_bm"/"cf-chl", `txt_js_challenge` for
"checking your browser"/"just a moment"/"verify you are human",
`txt_captcha` for "g-recaptcha"/"hcaptcha"/the captcha word regex,
`txt_too_many` for "too many requests", `txt_auth` for
"sign in"/"log in"/"authorization", `txt_denied` for
"access denied"/"forbidden". -/
def classify_block (r : Resp) : Option String :=
  let sc := r.status
  let is_cf := r.hdr_cf_ray || r.hdr_server_cloudflare || r.txt_cf_markers
  let is_js := r.txt_js_challenge
  let is_captcha := r.txt_captcha
  let is_rate := sc == 429 || r.txt_too_many
  let is_auth := sc == 401 || r.txt_auth
  let is_denied := sc == 403 || r.txt_denied
  let hint : Option String :=
    if is_cf then
      if is_captcha then some "captcha"
      else if is_js then some "js_challenge"
      else some "cloudflare"
    else if is_captcha then some "captcha"
    else if is_js then some "js_challenge"
    else if is_rate then some "rate_limited"
    else if is_auth then some "auth_required"
    else if is_denied then some "access_denied"
    else none
  match hint with
  | some h => some h
  | none => if sc == 200 && (is_cf || is_js || is_captcha) then some "blocked" else none

/-- Row of the unique view (`items_unique`). -/
structure URow where
  item_id : Option String
  payload : String
  first_seen_at : String
  last_seen_at : String
  seen_count : ℕ
deriving DecidableEq

/-- Translation of `DualSqliteStore._upsert_unique` acting on the row
currently stored under the item key (`none` when the key is new).  Returns
the stored row after the statement and the "inserted new unique" flag.
The UPDATE branch sets `item_id = COALESCE(new, old)`. -/
def upsert_unique (row : Option URow) (item_id : Option String)
    (payload seen_at : String) : URow × Bool :=
  match row with
  | none => (⟨item_id, payload, seen_at, seen_at, 1⟩, true)
  | some r =>
    (⟨item_id.orElse fun _ => r.item_id, payload, r.first_seen_at, seen_at,
      r.seen_count + 1⟩, false)

/-- Row of the raw append-only log (`items_raw`); the autoincrement rowid is
the list position. -/
structure RawRow where
  run_id : String
  seq : ℤ
  item_key : String
  item_id : Option String
  payload : String
  seen_at : String
deriving DecidableEq

/-- Row of the `run_state` checkpoint table. -/
structure RunStateRow where
  profile : String
  run_id : String
  state_json : String
  updated_at : String
  batch_idx : ℤ
  last_seq : ℤ
  items_seen : ℤ
deriving DecidableEq

/-- Row of the `blocked_events` queue. -/
structure BlockedRow where
  bid : ℕ
  created_at : String
  resolved_at : Option String
  resolved_note : Option String
  profile : String
  profile_path : Option String
  run_id : Option String
  batch_idx : Option ℤ
  url : String
  method : Option String
  params_json : Option String
  pagination_state_json : Option String
  status_code : Option ℤ
  block_hint : Option String
  error : Option String
  resp_url_final : Option String
  resp_headers_json : Option String
  resp_snippet : Option String
deriving DecidableEq

/-- State of the four tables of `DualSqliteStore`.  The unique view is a
map keyed by `item_key`, its PRIMARY KEY, so a key holds at most one row
by construction. -/
structure Store where
  raw : List RawRow
  uniq : String → Option URow
  run_state : List RunStateRow
  blocked : List BlockedRow

/-- Translation of `DualSqliteStore._insert_raw`: unconditional INSERT. -/
def insert_raw (s : Store) (run_id : String) (seq : ℤ) (item_key : String)
    (item_id : Option String) (payload seen_at : String) : Store :=
  { s with raw := s.raw ++ [⟨run_id, seq, item_key, item_id, payload, seen_at⟩] }

/-- Core of `DualSqliteStore.put_both` after `extract_item_id` /
`make_item_key` / `json.dumps` have produced `item_id`, `item_key` and
`payload`: raw INSERT always, then the unique upsert. -/
def put_core (s : Store) (item_id : Option String) (item_key payload seen_at : String)
    (run_id : String) (seq : ℤ) : Store × Bool :=
  let s1 := insert_raw s run_id seq item_key item_id payload seen_at
  let ru := upsert_unique (s1.uniq item_key) item_id payload seen_at
  ({ s1 with uniq := fun k => if k == item_key then some ru.1 else s1.uniq k }, ru.2)

/-- Translation of `DualSqliteStore.put_both`: the keying collaborator
(`extract_item_id`, `make_item_key`, `json.dumps`) is passed in as
functions of the record. -/
def put_both {α : Type} (idFn : α → Option String) (keyFn : α → String)
    (payloadFn : α → String) (s : Store) (item : α) (run_id : String) (seq : ℤ)
    (seen_at : String) : Store × Bool × String :=
  let item_id := idFn item
  let item_key := keyFn item
  let payload := payloadFn item
  let r := put_core s item_id item_key payload seen_at run_id seq
  (r.1, r.2, item_key)

/-- Translation of `DualSqliteStore.save_state`: upsert keyed by
`(profile, run_id)`. -/
def save_state (s : Store) (profile run_id state_json updated_at : String)
    (batch_idx last_seq items_seen : ℤ) : Store :=
  let row : RunStateRow := ⟨profile, run_id, state_json, updated_at, batch_idx, last_seq, items_seen⟩
  let updated := s.run_state.map
    (fun r => if r.profile == profile && r.run_id == run_id then row else r)
  if s.run_state.any (fun r => r.profile == profile && r.run_id == run_id) then
    { s with run_state := updated }
  else
    { s with run_state := s.run_state ++ [row] }

/-- Translation of `add_blocked_event`: INSERT with fresh autoincrement id
and a null resolution lifecycle. -/
def add_blocked_event (s : Store) (row : BlockedRow) : Store × ℕ :=
  let bid := s.blocked.length + 1
  let row1 := { row with bid := bid, resolved_at := none, resolved_note := none }
  ({ s with blocked := s.blocked ++ [row1] }, bid)

/-- Translation of `mark_blocked_resolved`: UPDATE of the resolution
columns of the matching `bid`. -/
def mark_blocked_resolved (s : Store) (bid : ℕ) (resolved_at : String)
    (note : Option String) : Store :=
  let upd := fun (r : BlockedRow) =>
    if r.bid == bid then { r with resolved_at := some resolved_at, resolved_note := note } else r
  { s with blocked := s.blocked.map upd }

/-- Every state-changing operation of `DualSqliteStore`
(`load_state`, `latest_run_id`, `count_*`, `get_*`, `list_*` are pure
SELECT queries and do not change the tables). -/
inductive StoreOp where
  | put (item_id : Option String) (item_key payload seen_at run_id : String) (seq : ℤ)
  | saveState (profile run_id state_json updated_at : String) (batch_idx last_seq items_seen : ℤ)
  | addBlocked (row : BlockedRow)
  | markResolved (bid : ℕ) (resolved_at : String) (note : Option String)

/-- Effect of a store operation on the table state. -/
def applyStoreOp (op : StoreOp) (s : Store) : Store :=
  match op with
  | StoreOp.put item_id item_key payload seen_at run_id seq =>
    (put_core s item_id item_key payload seen_at run_id seq).1
  | StoreOp.saveState profile run_id state_json updated_at b l i =>
    save_state s profile run_id state_json updated_at b l i
  | StoreOp.addBlocked row => (add_blocked_event s row).1
  | StoreOp.markResolved bid at_ note => mark_blocked_resolved s bid at_ note

/-- State of `http_engine.TokenBucket`: configuration plus the mutable
`tokens` / `last_ts` pair (clock values in seconds as `ℚ`). -/
structure TokenBucket where
  rate_per_sec : ℚ
  capacity : ℚ
  tokens : ℚ
  last_ts : ℚ

/-- Construction of a `TokenBucket` (`__post_init__`): `tokens` starts at 0
and is topped up to `capacity` when `start_full` is set. -/
def TokenBucket.init (rate_per_sec capacity : ℚ) (start_full : Bool) (now : ℚ) : TokenBucket :=
  let tokens0 : ℚ := 0
  ⟨rate_per_sec, capacity, if start_full && decide (tokens0 ≤ 0) then capacity else tokens0, now⟩

/-- Translation of `TokenBucket.acquire` at clock value `now`: refill from
elapsed time, then either consume a token (wait 0) or reserve a fractional
token and return the time needed to accumulate it. -/
def TokenBucket.acquire (tb : TokenBucket) (now : ℚ) : TokenBucket × ℚ :=
  let elapsed := max 0 (now - tb.last_ts)
  let tokens1 := min tb.capacity (tb.tokens + elapsed * tb.rate_per_sec)
  if 1 ≤ tokens1 then
    ({ tb with tokens := tokens1 - 1, last_ts := now }, 0)
  else
    let need := 1 - tokens1
    let wait := need / max tb.rate_per_sec (1 / 1000000000)
    ({ tb with tokens := 0, last_ts := now }, max 0 wait)

/-- Waits returned by a sequence of `TokenBucket.acquire` calls at the given
clock values. -/
def TokenBucket.runCalls (tb : TokenBucket) : List ℚ → List ℚ
  | [] => []
  | t :: ts =>
    let r := tb.acquire t
    r.2 :: r.1.runCalls ts

/-- State of `http_engine.SlidingWindow`: configuration plus the recorded
admission timestamps. -/
structure SlidingWindow where
  max_requests : ℕ
  window_sec : ℚ
  stamps : List ℚ

/-- Translation of `SlidingWindow.acquire` at clock value `now`: evict
timestamps older than the window, admit and record if under the limit,
otherwise return the time until the oldest timestamp exits the window
(recording nothing). -/
def SlidingWindow.acquire (sw : SlidingWindow) (now : ℚ) : SlidingWindow × ℚ :=
  let cutoff := now - sw.window_sec
  let kept := sw.stamps.filter (fun t => decide (cutoff ≤ t))
  if kept.length < sw.max_requests then
    ({ sw with stamps := kept ++ [now] }, 0)
  else
    let earliest := match kept.min? with
      | some m => m
      | none => now
    ({ sw with stamps := kept }, max 0 (earliest + sw.window_sec - now))

/-- The `(call time, returned wait)` pairs of a sequence of
`SlidingWindow.acquire` calls at the given clock values. -/
def SlidingWindow.runCalls (sw : SlidingWindow) : List ℚ → List (ℚ × ℚ)
  | [] => []
  | t :: ts =>
    let r := sw.acquire t
    (t, r.2) :: r.1.runCalls ts

/-- Ghost observer of `SlidingWindow.runCalls`: the call times at which
`acquire` took its recording branch (appended a timestamp). -/
def SlidingWindow.stampedTimes (sw : SlidingWindow) : List ℚ → List ℚ
  | [] => []
  | t :: ts =>
    let kept := sw.stamps.filter (fun s => decide (t - sw.window_sec ≤ s))
    let r := sw.acquire t
    if kept.length < sw.max_requests then t :: r.1.stampedTimes ts
    else r.1.stampedTimes ts

/-- Number of elements of `l` inside the closed window `[a, a + W]`. -/
def windowCount (W : ℚ) (l : List ℚ) (a : ℚ) : ℕ :=
  (l.filter (fun s => decide (a ≤ s) && decide (s ≤ a + W))).length

/-- Translation of `http_engine.RetryPolicy` (defaults as in the source). -/
structure RetryPolicy where
  max_attempts : ℕ := 4
  base_delay : ℚ := 1/2
  cap_delay : ℚ := 8
  jitter : String := "full"
  retry_statuses : List ℤ := [429, 500, 502, 503, 504]
  respect_retry_after : Bool := true

/-- Translation of `http_engine._backoff_delay` before jitter:
`min(cap, base * 2^(attempt-1))`. -/
def backoff_delay_nojitter (pol : RetryPolicy) (attempt : ℕ) : ℚ :=
  min pol.cap_delay (pol.base_delay * 2 ^ (attempt - 1))

/-- Value slept for backoff: with jitter mode "full" the source draws
`random.uniform(0, delay)`, modelled by the externally supplied `sample`;
otherwise the deterministic delay. -/
def backoff_sleep (pol : RetryPolicy) (attempt : ℕ) (sample : ℚ) : ℚ :=
  if pol.jitter == "full" then sample else backoff_delay_nojitter pol attempt

/-- Outcome of the retry decision at the end of one attempt of
`HttpEngine.request` (source lines after the fallback ladder): return the
last response as final, or sleep `wait` seconds and run the next attempt.
The `crash` constructor marks the source path that would dereference a
`None` response inside `_retry_after_seconds`. -/
inductive RetryDecision where
  | finalReturn (resp : Option Resp) (err : String)
  | retry (nextAttempt : ℕ) (wait : ℚ)
  | crash

/-- Translation of the per-attempt retry decision of `HttpEngine.request`
(the code from `last_err = "http_{sc}"` to the backoff sleep): not
retryable or out of attempts returns the outcome; otherwise a positive
Retry-After value is slept and the loop continues with the next attempt;
otherwise the computed backoff is slept and the loop continues with the
next attempt. -/
def retry_step (pol : RetryPolicy) (attempt : ℕ) (sc : ℤ) (resp : Option Resp)
    (sample : ℚ) : RetryDecision :=
  let lastErr := "http_" ++ toString sc
  let bk : RetryDecision :=
    if pol.max_attempts ≤ attempt then RetryDecision.finalReturn none lastErr
    else RetryDecision.retry (attempt + 1) (backoff_sleep pol attempt sample)
  if !(pol.retry_statuses.contains sc) || decide (pol.max_attempts ≤ attempt) then
    RetryDecision.finalReturn resp lastErr
  else if pol.respect_retry_after then
    match resp with
    | none => RetryDecision.crash
    | some rr =>
      match retry_after_seconds rr.retryAfter with
      | some ra => if 0 < ra then RetryDecision.retry (attempt + 1) ra else bk
      | none => bk
  else bk

/-- Translation of `http_engine._block_hint`, the engine's rough block
heuristic (distinct from `block_detect.classify_block`): only statuses
401/403/429 are inspected, and the precedence is cloudflare headers, then
captcha text, then JS-challenge text, then access-denied text, then 429,
then auth text on 401/403. -/
def block_hint (r : Resp) : Option String :=
  if !(r.status == 401 || r.status == 403 || r.status == 429) then none
  else if r.hdr_cf_ray || r.hdr_server_cloudflare then some "cloudflare"
  else if r.txt_captcha then some "captcha"
  else if r.txt_js_challenge then some "js_challenge"
  else if r.txt_denied then some "access_denied"
  else if r.status == 429 then some "rate_limited"
  else if (r.status == 401 || r.status == 403) && r.txt_auth then some "auth_required"
  else none

/-- Result of one scripted physical request of the HTTP session. -/
inductive PhysOutcome where
  | ok (r : Resp)
  | timeout
  | netErr (name : String)

/-- Browser-fallback configuration (`headers_cfg["browser_fallback"]` with
the nested `playwright` dict flattened into `pw_enabled` / `pw_mode`). -/
structure FallbackCfg where
  enabled : Bool := false
  on_status : List ℤ := [403]
  max_tries : ℕ := 1
  strategy : String := "sec_headers"
  pw_enabled : Bool := false
  pw_mode : String := ""
  on_hint : List String := []

/-- Static configuration of `HttpEngine` relevant to the request flow. -/
structure EngineCfg where
  pol : RetryPolicy := {}
  fb : FallbackCfg := {}
  cache_dir : Bool := false
  replay : Bool := false
  store_statuses : List ℤ := [200, 201, 202, 203, 204, 206, 301, 302, 304]

/-- Scripted environment of one `HttpEngine.request` call: the session's
physical responses in issue order, the browser collaborator's results, the
jitter samples, and the cache artifact found for the computed key. -/
structure Env where
  phys : ℕ → PhysOutcome
  primeOk : Bool := false
  primeErr : String := ""
  renderResp : Option Resp := none
  renderErr : String := ""
  backoffSample : ℕ → ℚ := fun _ => 0
  cacheHit : Option Resp := none

/-- Observable events of one `HttpEngine.request` call, in order:
limiter `acquire` (with its wait slept), a physical session request, the
browser collaborator navigating for cookie priming, the browser
collaborator rendering the page, a retry sleep, a cache write. -/
inductive Ev where
  | acquire : Ev
  | phys : Ev
  | primeNav : Ev
  | renderNav : Ev
  | slept : ℚ → Ev
  | cacheSave : Ev
deriving DecidableEq

/-- Mutable control state threaded through the fallback ladder of one
attempt: current response (possibly dropped by a sub-request exception),
the `sc` variable, the last error string, the next script index and the
event trace so far. -/
structure StageSt where
  resp : Option Resp
  sc : ℤ
  lastErr : Option String
  idx : ℕ
  trace : List Ev

/-- Final outcome of `HttpEngine.request`: response, error, event trace
(the source also returns elapsed milliseconds, not modelled). -/
structure ReqResult where
  resp : Option Resp
  err : Option String
  trace : List Ev

/-- Events of `_cache_save`: a write happens only with a cache key present
and a status in the store allow-list. -/
def save_events (cfg : EngineCfg) (r : Resp) : List Ev :=
  if cfg.cache_dir && cfg.store_statuses.contains r.status then [Ev.cacheSave] else []

/-- Successful return of `HttpEngine.request` (optionally recording into
the cache first). -/
def success_result (cfg : EngineCfg) (r : Resp) (trace : List Ev) : ReqResult :=
  ⟨some r, none, trace ++ save_events cfg r⟩

/-- Body shared by the two sec-headers fallback blocks and the post-priming
retry of `HttpEngine.request`: limiter acquire, session request, then
return on 2xx-3xx, adopt the new response on other statuses, or drop the
response on a transport error.  Each source `while` block executes its body
at most once (every path ends in `return` or `break`). -/
def sec_fallback_step (cfg : EngineCfg) (env : Env) (st : StageSt) : Sum ReqResult StageSt :=
  let trace1 := st.trace ++ [Ev.acquire, Ev.phys]
  match env.phys st.idx with
  | PhysOutcome.ok r2 =>
    if 200 ≤ r2.status ∧ r2.status < 400 then
      Sum.inl (success_result cfg r2 trace1)
    else
      Sum.inr { st with idx := st.idx + 1, trace := trace1, resp := some r2, sc := r2.status }
  | PhysOutcome.timeout =>
    Sum.inr { st with idx := st.idx + 1, trace := trace1, resp := none, lastErr := some "timeout" }
  | PhysOutcome.netErr n =>
    let e := some ("network_error:" ++ n)
    Sum.inr { st with idx := st.idx + 1, trace := trace1, resp := none, lastErr := e }

/-- Stage 1 of the fallback ladder: the sec-headers retry, gated on the
enable flag, a sec-headers strategy, a blockable status and the max-tries
count (`max_tries or 1` in the source, so 0 means 1). -/
def stage1 (cfg : EngineCfg) (env : Env) (st : StageSt) : Sum ReqResult StageSt :=
  let fb := cfg.fb
  let max_fb := if fb.max_tries == 0 then 1 else fb.max_tries
  if fb.enabled && ["sec_headers", "auto", "mixed"].contains fb.strategy
      && fb.on_status.contains st.sc && decide (0 < max_fb) then
    sec_fallback_step cfg env st
  else Sum.inr st

/-- Stage 2 of the fallback ladder: the Playwright stage.  Cookie priming
navigates the browser and, on success, reissues the original request
(limiter acquire first); the render mode asks the browser for the rendered
page and adopts the synthesized response without any limiter acquire. -/
def stage2 (cfg : EngineCfg) (env : Env) (hint0 : Option String) (st : StageSt) :
    Sum ReqResult StageSt :=
  let fb := cfg.fb
  let pw_enabled := fb.pw_enabled || fb.strategy.startsWith "playwright"
  let hint1 := match st.resp with
    | some rr => block_hint rr
    | none => hint0
  let hintMatch := match hint1 with
    | some h => fb.on_hint.contains h
    | none => false
  if fb.enabled && pw_enabled && (fb.on_status.contains st.sc || hintMatch) then
    let pw_mode :=
      if fb.pw_mode ≠ "" then fb.pw_mode
      else if fb.strategy == "playwright_html" then "render_html"
      else if fb.strategy == "playwright_prime" then "prime_cookies"
      else "prime_cookies"
    if pw_mode == "prime_cookies" then
      let st1 := { st with trace := st.trace ++ [Ev.primeNav] }
      let primeFail := some (if env.primeErr == "" then "playwright_prime_failed" else env.primeErr)
      if env.primeOk then
        sec_fallback_step cfg env st1
      else
        Sum.inr { st1 with lastErr := primeFail }
    else if pw_mode == "render_html" then
      let st1 := { st with trace := st.trace ++ [Ev.renderNav] }
      let renderFail := some (if env.renderErr == "" then "playwright_render_failed" else env.renderErr)
      match env.renderResp with
      | some r4 =>
        if 200 ≤ r4.status ∧ r4.status < 400 then
          Sum.inl (success_result cfg r4 st1.trace)
        else
          Sum.inr { st1 with resp := some r4, sc := r4.status }
      | none =>
        Sum.inr { st1 with lastErr := renderFail }
    else Sum.inr st
  else Sum.inr st

/-- Stage 3: the source's duplicated sec-headers block (same body as stage
1 but with no strategy gate and a reset try counter). -/
def stage3 (cfg : EngineCfg) (env : Env) (st : StageSt) : Sum ReqResult StageSt :=
  let fb := cfg.fb
  let max_fb := if fb.max_tries == 0 then 1 else fb.max_tries
  if fb.enabled && fb.on_status.contains st.sc && decide (0 < max_fb) then
    sec_fallback_step cfg env st
  else Sum.inr st

/-- The attempt loop of `HttpEngine.request` (`for attempt in range(1,
max_attempts+1)`), with `rem` the remaining loop iterations: limiter
acquire and sleep, physical request, on success return (recording to
cache), otherwise the three fallback stages and the retry decision. -/
def engine_loop (cfg : EngineCfg) (env : Env) :
    ℕ → ℕ → Option String → ℕ → List Ev → ReqResult
  | 0, _, lastErr, _, trace => ⟨none, some (lastErr.getD "request_failed"), trace⟩
  | Nat.succ rem, attempt, lastErr, idx, trace =>
    let trace1 := trace ++ [Ev.acquire, Ev.phys]
    match env.phys idx with
    | PhysOutcome.timeout =>
      if cfg.pol.max_attempts ≤ attempt then ⟨none, some "timeout", trace1⟩
      else
        engine_loop cfg env rem (attempt + 1) (some "timeout") (idx + 1)
          (trace1 ++ [Ev.slept (backoff_sleep cfg.pol attempt (env.backoffSample attempt))])
    | PhysOutcome.netErr n =>
      if cfg.pol.max_attempts ≤ attempt then ⟨none, some ("network_error:" ++ n), trace1⟩
      else
        engine_loop cfg env rem (attempt + 1) (some ("network_error:" ++ n)) (idx + 1)
          (trace1 ++ [Ev.slept (backoff_sleep cfg.pol attempt (env.backoffSample attempt))])
    | PhysOutcome.ok r =>
      if 200 ≤ r.status ∧ r.status < 400 then
        success_result cfg r trace1
      else
        let hint0 := block_hint r
        let st0 : StageSt := ⟨some r, r.status, lastErr, idx + 1, trace1⟩
        match stage1 cfg env st0 with
        | Sum.inl res => res
        | Sum.inr st1 =>
          match stage2 cfg env hint0 st1 with
          | Sum.inl res => res
          | Sum.inr st2 =>
            match stage3 cfg env st2 with
            | Sum.inl res => res
            | Sum.inr st3 =>
              match retry_step cfg.pol attempt st3.sc st3.resp (env.backoffSample attempt) with
              | RetryDecision.finalReturn rsp err =>
                let ev := match rsp with
                  | some rr => save_events cfg rr
                  | none => []
                ⟨rsp, some err, st3.trace ++ ev⟩
              | RetryDecision.retry nxt wait =>
                engine_loop cfg env rem nxt (some ("http_" ++ toString st3.sc)) st3.idx
                  (st3.trace ++ [Ev.slept wait])
              | RetryDecision.crash => ⟨none, some "exception:AttributeError", st3.trace⟩

/-- Translation of `HttpEngine.request`: with a cache directory configured,
replay mode resolves entirely against the cache before the attempt loop;
otherwise the loop runs (the cache key is computed from the request shape,
abstracted into `env.cacheHit` being the artifact stored under that key). -/
def engine_request (cfg : EngineCfg) (env : Env) : ReqResult :=
  if cfg.cache_dir && cfg.replay then
    match env.cacheHit with
    | some c => ⟨some c, none, []⟩
    | none => ⟨none, some "cache_miss", []⟩
  else
    engine_loop cfg env cfg.pol.max_attempts 1 none 0 []

/-- Boolean scan: inside `tr`, every occurrence of `tgt` is immediately
preceded by `pre` (`p` is the previous event). -/
def chainPre (tgt pre : Ev) : Ev → List Ev → Bool
  | _, [] => true
  | p, e :: rest => (!(e == tgt) || (p == pre)) && chainPre tgt pre e rest

/-- Every occurrence of event `tgt` in the trace is immediately preceded by
event `pre` (an occurrence at the head has no predecessor and fails). -/
def precededBy (tgt pre : Ev) : List Ev → Bool
  | [] => true
  | e :: rest => !(e == tgt) && chainPre tgt pre e rest

/-- Result record of `resp_read.safe_read_json` (preview/encoding/content
type omitted; `data` is the decoded python value, so JSON `null` is the
python `None`, i.e. `none`). -/
structure JsonReadResult where
  ok : Bool
  data : Option J := none
  error : Option String := none

/-- Decoded JSON value as a python object: JSON `null` is python `None`. -/
def pyOpt : J → Option J
  | J.null => none
  | j => some j

/-- Translation of `resp_read.safe_read_json` over the body model, for the
runtime's call shape (`must_have_keys` is `None` there, so the shape check
is skipped): binary bodies fail, non-JSON-looking text fails unless forced,
decode failures fail, and with `detect_soft` a detected application-level
failure yields `ok = False` with error `soft_error` (data still carried). -/
def safe_read_json (b : Body) (force : Bool) (detect_soft : Bool) : JsonReadResult :=
  match b with
  | Body.binary => ⟨false, none, some "binary"⟩
  | Body.txt _ looksJson decoded =>
    if !(looksJson || force) then ⟨false, none, some "not_json"⟩
    else
      match decoded with
      | none => ⟨false, none, some "json_decode_error"⟩
      | some j =>
        if detect_soft then
          match detect_soft_error j with
          | some _ => ⟨false, pyOpt j, some "soft_error"⟩
          | none => ⟨true, pyOpt j, none⟩
        else ⟨true, pyOpt j, none⟩

/-- Translation of `resp_read.read_text_safely` at the granularity of the
body model: binary content types give `None`, text always decodes to the
raw string (the source's encoding-hypothesis ladder always produces text). -/
def read_text_safely (b : Body) : Option String :=
  match b with
  | Body.binary => none
  | Body.txt raw _ _ => some raw

/-- Whether a JSON value is an object (python `isinstance(it, dict)`). -/
def J.isObj : J → Bool
  | J.obj _ => true
  | _ => false

/-- The wrapping of extracted items in `runtime.paginate_items`
(source lines 201-206): a dict is yielded as is, anything else is wrapped
as a one-field dict under the key "value". -/
def wrapRecord (j : J) : J :=
  if j.isObj then j else J.obj [("value", j)]

/-- Pagination kinds of the runtime state machine. -/
inductive PagKind where
  | page
  | offset
  | cursor_token
  | next_url
  | unknown
deriving DecidableEq

/-- Pagination section of a site profile (parameter NAMES like
`page_param` are consumed by the unmodelled request assembly and omitted;
`limit_param` records whether a limit parameter name is configured). -/
structure Pagination where
  kind : PagKind
  max_batches : ℕ
  limit : Option ℤ := none
  limit_param : Bool := false
  step : Option ℤ := none
  start_from : ℤ := 1

/-- The slice of a `SiteProfile` that `paginate_items` reads. -/
structure PagProfile where
  url : String
  pagination : Pagination
  mode : String := "json"

/-- The resumable pagination cursor `{url, page, offset, cursor, next_url}`. -/
structure PagState where
  url : String
  pg : ℤ
  off : ℤ
  cursor : Option String := none
  nextU : Option String := none

/-- The state dictionary the runtime passes to its checkpoint and block
callbacks: the cursor fields plus `batch_idx` and the kind. -/
structure PagShot where
  kind : PagKind
  url : String
  pg : ℤ
  off : ℤ
  cursor : Option String
  nextU : Option String
  batch_idx : ℕ

/-- Events emitted by `paginate_items` to its caller-supplied callbacks
(both callbacks assumed installed). -/
inductive PEv where
  | block (hint : String) (shot : PagShot)
  | checkpoint (shot : PagShot)

/-- Collected observable output of a `paginate_items` run: the yielded
records in order and the callback events in order. -/
structure PagOut where
  yields : List J
  events : List PEv

/-- Collaborators of one `paginate_items` run: the engine outcome per
batch (the request assembly from state is not modelled — the oracle sees
the batch index and the current state), the external extractor, and the
`http_utils` link/cursor readers. -/
structure PagEnv where
  fetch : ℕ → PagState → Option Resp × Option String
  extractJson : J → List J
  extractHtml : String → List J
  linkNext : ℕ → Option String
  jsonNext : J → Option String
  cursorTok : J → Option String
  urljoin : String → String → String

/-- Python string falsiness on an optional string: `None` and `""` are
falsy. -/
def truthyStr (o : Option String) : Option String :=
  match o with
  | some s => if s == "" then none else some s
  | none => none

/-- Translation of `runtime._absolutize_next`. -/
def absolutize_next (uj : String → String → String) (base nxt : String) : String :=
  if nxt.startsWith "http://" || nxt.startsWith "https://" then nxt else uj base nxt

/-- State advance of one batch (source lines 209-240).  Returns `none`
when the source does `return` (halt), else the post-advance state. -/
def pag_advance (prof : PagProfile) (env : PagEnv) (batch_idx : ℕ) (st : PagState)
    (data_json : Option J) (items : List J) : Option PagState :=
  match prof.pagination.kind with
  | PagKind.page => some { st with pg := st.pg + 1 }
  | PagKind.offset =>
    let fallb : ℤ := if prof.pagination.limit_param then (prof.pagination.limit).getD 0
      else (items.length : ℤ)
    let stepv : ℤ := match prof.pagination.step with
      | some s2 => if s2 == 0 then fallb else s2
      | none => fallb
    some { st with off := st.off + stepv }
  | PagKind.cursor_token =>
    match data_json with
    | none => none
    | some dj =>
      match truthyStr (env.cursorTok dj) with
      | none => none
      | some nc => if some nc == st.cursor then none else some { st with cursor := some nc }
  | PagKind.next_url =>
    let fromJson : Option String := match data_json with
      | some dj => env.jsonNext dj
      | none => none
    let nxt := match truthyStr (env.linkNext batch_idx) with
      | some s2 => some s2
      | none => truthyStr fromJson
    match nxt with
    | none => none
    | some s2 =>
      let nu := absolutize_next env.urljoin prof.url s2
      some { st with nextU := some nu, url := nu }
  | PagKind.unknown => none

/-- One iteration plus the remainder of the batch loop of
`paginate_items`: request, block classification on failures, JSON then
HTML extraction, yielding with wrapping, state advance, checkpoint, stop
conditions. -/
def paginate_loop (prof : PagProfile) (env : PagEnv) (extract_mode : String) :
    ℕ → ℕ → PagState → PagOut
  | 0, _, _ => ⟨[], []⟩
  | Nat.succ rem, batch_idx, st =>
    let kind := prof.pagination.kind
    let url1 := if kind == PagKind.next_url then
        match st.nextU with
        | some u => u
        | none => st.url
      else st.url
    let st1 := { st with url := url1 }
    match env.fetch batch_idx st1 with
    | (none, _) => ⟨[], []⟩
    | (some resp, err) =>
      let is2xx := decide (200 ≤ resp.status) && decide (resp.status < 400)
      let shot : PagShot := ⟨kind, st1.url, st1.pg, st1.off, st1.cursor, st1.nextU, batch_idx⟩
      if (err.isSome && !is2xx) || !is2xx then
        match classify_block resp with
        | some h => ⟨[], [PEv.block h shot]⟩
        | none => ⟨[], []⟩
      else
        let jsonPhase : Option (Option J × List J) :=
          if extract_mode == "json" || extract_mode == "auto" then
            let jr := safe_read_json resp.body (extract_mode == "json") true
            if jr.ok && jr.data.isSome then
              some (jr.data, env.extractJson (jr.data.getD J.null))
            else if extract_mode == "json" then none
            else some (none, [])
          else some (none, [])
        match jsonPhase with
        | none => ⟨[], []⟩
        | some (data_json, items0) =>
          let htmlPhase : Option (List J) :=
            if items0.isEmpty && (extract_mode == "html" || extract_mode == "auto") then
              match read_text_safely resp.body with
              | none => none
              | some t => some (env.extractHtml t)
            else some items0
          match htmlPhase with
          | none => ⟨[], []⟩
          | some items =>
            if items.isEmpty then ⟨[], []⟩
            else
              let ys := items.map wrapRecord
              match pag_advance prof env batch_idx st1 data_json items with
              | none => ⟨ys, []⟩
              | some st2 =>
                let shot2 : PagShot := ⟨kind, st2.url, st2.pg, st2.off, st2.cursor, st2.nextU, batch_idx⟩
                let evs := [PEv.checkpoint shot2]
                let stop := prof.pagination.limit_param &&
                  (match prof.pagination.limit with
                   | some l => decide (0 < l) && decide ((items.length : ℤ) < l)
                   | none => false)
                if stop then ⟨ys, evs⟩
                else
                  let rest := paginate_loop prof env extract_mode rem (batch_idx + 1) st2
                  ⟨ys ++ rest.yields, evs ++ rest.events⟩

/-- Translation of `runtime.paginate_items` (collected form): extract-mode
normalization, state initialization (a resume state supplies every cursor
field, a fresh start uses the profile), then the batch loop. -/
def paginate_items (prof : PagProfile) (env : PagEnv) (state : Option PagState) : PagOut :=
  let extract_mode := if ["json", "html", "auto"].contains prof.mode then prof.mode else "json"
  let st0 : PagState := match state with
    | none => ⟨prof.url, prof.pagination.start_from, 0, none, none⟩
    | some s => s
  paginate_loop prof env extract_mode prof.pagination.max_batches 0 st0

/-- Trace of either outcome of a fallback stage. -/
def sumTrace : Sum ReqResult StageSt → List Ev
  | Sum.inl r => r.trace
  | Sum.inr s => s.trace

/-- No window of `W` seconds contains more than `N` of the listed times. -/
def windowBound (N : ℕ) (W : ℚ) (l : List ℚ) : Prop :=
  ∀ a : ℚ, windowCount W l a ≤ N

/-- Engine configuration with the browser-render fallback enabled
(concrete instance used by the escalation-ladder claims). -/
def cfgRender : EngineCfg :=
  { fb := { enabled := true, strategy := "playwright_html", pw_enabled := true } }

/-- Scripted run: the session answers 403 and the browser render succeeds
with a 200 page. -/
def envRender : Env :=
  { phys := fun _ => PhysOutcome.ok { status := 403 },
    renderResp := some { status := 200 } }

/-- A 200 response whose JSON body self-reports failure and whose text
carries a CAPTCHA marker (concrete instance for the soft-error claims). -/
def softResp : Resp :=
  { status := 200, txt_captcha := true,
    body := Body.txt "" true (some (J.obj [("success", J.b false)])) }

/-- JSON-mode page-paginated profile (three batches). -/
def profJson3 : PagProfile :=
  { url := "u", pagination := { kind := PagKind.page, max_batches := 3 }, mode := "json" }

/-- Environment whose every fetch returns the soft-error response. -/
def envSoft : PagEnv :=
  { fetch := fun _ _ => (some softResp, none),
    extractJson := fun _ => [J.obj []],
    extractHtml := fun _ => [],
    linkNext := fun _ => none,
    jsonNext := fun _ => none,
    cursorTok := fun _ => none,
    urljoin := fun a _ => a }

/-- One-shot profile of kind `unknown` in JSON mode. -/
def profOneShot : PagProfile :=
  { url := "u", pagination := { kind := PagKind.unknown, max_batches := 1 }, mode := "json" }

/-- Scripted run in which the server always answers 429 with
`Retry-After: 5` (concrete instance for the Retry-After claims). -/
def envRA : Env :=
  { phys := fun _ => PhysOutcome.ok { status := 429, retryAfter := RAHeader.seconds 5 } }

/-- Environment yielding one scalar record from a healthy 200 JSON page. -/
def envScalar : PagEnv :=
  { fetch := fun _ _ =>
      (some { status := 200, body := Body.txt "" true (some (J.obj [("k", J.s "v")])) }, none),
    extractJson := fun _ => [J.s "x"],
    extractHtml := fun _ => [],
    linkNext := fun _ => none,
    jsonNext := fun _ => none,
    cursorTok := fun _ => none,
    urljoin := fun a _ => a }

/-!
Theorems settling the claims.
-/

/-- Claim C2, counterexample: an upsert on an already-present item key
whose previous `item_id` is the non-null "a" and whose new sighting
carries `item_id` "b" stores "b" — the previously known non-null value is
replaced, contradicting "filled only if previously null". -/
theorem upsert_unique_item_id_cex :
    (upsert_unique (some ⟨some "a", "p0", "t0", "t0", 1⟩) (some "b") "p1" "t1").1.item_id
      = some "b"
    ∧ some "b" ≠ (some "a" : Option String) := by
  exact ⟨rfl, by decide⟩

/-- Claim C2, amended: on an upsert into the unique view on a present item
key, the row is updated (not inserted) and the stored `item_id` becomes
the new value when the new sighting carries a non-null `item_id`, and is
kept unchanged otherwise; in particular a previously known non-null
`item_id` is never overwritten with null. -/
theorem upsert_unique_item_id_amended (r : URow) (item_id : Option String)
    (payload seen_at : String) :
    ((upsert_unique (some r) item_id payload seen_at).1.item_id
      = match item_id with
        | some v => some v
        | none => r.item_id)
    ∧ (upsert_unique (some r) item_id payload seen_at).2 = false
    ∧ (r.item_id.isSome = true →
        ((upsert_unique (some r) item_id payload seen_at).1.item_id).isSome = true) := by
  refine ⟨?_, rfl, ?_⟩
  · cases item_id <;> rfl
  · intro h
    cases hid : item_id with
    | none => simpa [upsert_unique, Option.orElse, hid] using h
    | some v => simp [upsert_unique, Option.orElse, hid]

/-- Claim C2, witness for the amended theorem at a concrete row. -/
theorem upsert_unique_item_id_amended_witness :
    ((upsert_unique (some ⟨some "a", "p", "t", "t", 1⟩) none "p2" "t2").1.item_id).isSome
      = true :=
  (upsert_unique_item_id_amended ⟨some "a", "p", "t", "t", 1⟩ none "p2" "t2").2.2 rfl

/-- Claim C3, counterexample: a 403 response carrying a Cloudflare marker
(`cf-ray` header) together with a JS-challenge body marker is classified
`js_challenge`, not `cloudflare` — the stated precedence
Cloudflare > JS-challenge fails. -/
theorem classify_block_precedence_cex :
    classify_block { status := 403, hdr_cf_ray := true, txt_js_challenge := true }
      = some "js_challenge"
    ∧ some "js_challenge" ≠ (some "cloudflare" : Option String) := by
  exact ⟨rfl, by decide⟩

/-- Claim C3, amended: when Cloudflare markers are present the classifier
prefers the more specific challenge markers — CAPTCHA first, then
JS-challenge, and `cloudflare` only when neither body marker matches. -/
theorem classify_block_precedence_amended (r : Resp) :
    (r.hdr_cf_ray || r.hdr_server_cloudflare || r.txt_cf_markers) = true →
    (r.txt_captcha = true → classify_block r = some "captcha")
    ∧ (r.txt_captcha = false → r.txt_js_challenge = true →
        classify_block r = some "js_challenge")
    ∧ (r.txt_captcha = false → r.txt_js_challenge = false →
        classify_block r = some "cloudflare") := by
  intro hcf
  refine ⟨?_, ?_, ?_⟩ <;> intros <;> simp [classify_block, hcf, *]

/-- Claim C3, witness for the amended theorem: a pure Cloudflare-marked 403
is classified `cloudflare`. -/
theorem classify_block_precedence_amended_witness :
    classify_block { status := 403, hdr_cf_ray := true } = some "cloudflare" :=
  (classify_block_precedence_amended { status := 403, hdr_cf_ray := true } rfl).2.2 rfl rfl

/-- Helper: no store operation removes or rewrites existing raw rows. -/
theorem applyStoreOp_raw_isPre (op : StoreOp) (st : Store) :
    st.raw <+: (applyStoreOp op st).raw := by
  cases op with
  | put item_id item_key payload seen_at run_id seq =>
    exact ⟨[⟨run_id, seq, item_key, item_id, payload, seen_at⟩], rfl⟩
  | saveState profile run_id state_json updated_at b l i =>
    show st.raw <+: (save_state st profile run_id state_json updated_at b l i).raw
    unfold save_state
    split
    · exact List.prefix_rfl
    · exact List.prefix_rfl
  | addBlocked row => exact List.prefix_rfl
  | markResolved bid at_ note => exact List.prefix_rfl

/-- Claim C9: feeding two records with the same computed item key through
`put_both` appends exactly two rows to the raw log and leaves the unique
view holding, under that key, one row with `seen_count = 2` (the view is
keyed by its primary key, so one row per key by construction); moreover no
store operation ever updates or deletes raw rows — every operation leaves
the existing raw log as a prefix. -/
theorem put_both_dedup {α : Type} (idFn : α → Option String) (keyFn : α → String)
    (payloadFn : α → String) (s : Store) (i1 i2 : α) (rid1 rid2 : String)
    (seq1 seq2 : ℤ) (t1 t2 : String)
    (hkey : keyFn i2 = keyFn i1)
    (hfresh : s.uniq (keyFn i1) = none) :
    ((put_both idFn keyFn payloadFn
        (put_both idFn keyFn payloadFn s i1 rid1 seq1 t1).1 i2 rid2 seq2 t2).1.raw.length
      = s.raw.length + 2)
    ∧ (((put_both idFn keyFn payloadFn
          (put_both idFn keyFn payloadFn s i1 rid1 seq1 t1).1 i2 rid2 seq2 t2).1.uniq
            (keyFn i1)).map URow.seen_count = some 2)
    ∧ ∀ (op : StoreOp) (st : Store), st.raw <+: (applyStoreOp op st).raw := by
  refine ⟨?_, ?_, ?_⟩
  · simp [put_both, put_core, insert_raw, hkey]
  · simp [put_both, put_core, insert_raw, hkey, hfresh, upsert_unique]
  · exact applyStoreOp_raw_isPre

/-- Claim C9, witness: two puts of the same key into an empty store. -/
theorem put_both_dedup_witness :
    (put_both (fun _ => none) (fun _ => "k") (fun _ => "p")
        (put_both (fun _ => none) (fun _ => "k") (fun _ => "p")
          ⟨[], fun _ => none, [], []⟩ () "r1" 1 "t1").1 () "r2" 2 "t2").1.raw.length = 2 :=
  (put_both_dedup (fun _ => none) (fun _ => "k") (fun _ => "p")
    ⟨[], fun _ => none, [], []⟩ () () "r1" "r2" 1 2 "t1" "t2" rfl rfl).1

/-- Claim C8: in replay mode with a cache directory configured, the
request performs no observable action at all (no limiter acquire, no
physical request, no browser navigation — empty trace) and returns either
the stored artifact with no error, or no response with the typed failure
`cache_miss`; never both a response and an error. -/
theorem replay_never_fetches (cfg : EngineCfg) (env : Env)
    (hdir : cfg.cache_dir = true) (hreplay : cfg.replay = true) :
    (engine_request cfg env).trace = []
    ∧ ((∃ c, env.cacheHit = some c ∧ engine_request cfg env = ⟨some c, none, []⟩)
      ∨ (env.cacheHit = none ∧ engine_request cfg env = ⟨none, some "cache_miss", []⟩))
    ∧ ¬((engine_request cfg env).resp.isSome = true
        ∧ (engine_request cfg env).err.isSome = true) := by
  cases h : env.cacheHit with
  | some c =>
    refine ⟨?_, Or.inl ⟨c, rfl, ?_⟩, ?_⟩ <;> simp [engine_request, hdir, hreplay, h]
  | none =>
    refine ⟨?_, Or.inr ⟨rfl, ?_⟩, ?_⟩ <;> simp [engine_request, hdir, hreplay, h]

/-- Claim C8, witness: an empty cache in replay mode is a typed miss. -/
theorem replay_never_fetches_witness :
    (engine_request { cache_dir := true, replay := true }
      { phys := fun _ => PhysOutcome.timeout }).trace = [] :=
  (replay_never_fetches { cache_dir := true, replay := true }
    { phys := fun _ => PhysOutcome.timeout } rfl rfl).1

/-- Claim C1, counterexample: honoring the Retry-After courtesy wait does
increment the attempt counter, contradicting the claim as stated.  From
attempt 1 the decision after the 5-second sleep is to run attempt 2, not
attempt 1 again; and the engine, facing a server that always answers 429
with Retry-After 5, issues exactly `max_attempts = 4` physical requests
before giving up — each courtesy-wait cycle counts against the attempt
budget exactly like a backoff retry. -/
theorem retry_after_consumes_attempt_cex :
    retry_step {} 1 429 (some { status := 429, retryAfter := RAHeader.seconds 5 }) 0
      = RetryDecision.retry 2 5
    ∧ (2 : ℕ) ≠ 1
    ∧ (engine_request {} envRA).trace.count Ev.phys = ({} : RetryPolicy).max_attempts := by
  exact ⟨rfl, by decide, rfl⟩

/-- Claim C1, amended: with a retryable status, attempts remaining, the
policy honoring Retry-After and the response carrying Retry-After 5
seconds, the wait before the next physical request is exactly 5 seconds —
whatever the jitter sample, so the computed backoff is overridden for that
attempt only — but the loop then continues with attempt counter
`attempt + 1`, the same progression as the backoff path for a response
without Retry-After: the courtesy-wait retry consumes one attempt exactly
like an ordinary retry (the counter does increment). -/
theorem retry_after_precedence (pol : RetryPolicy) (attempt : ℕ) (r : Resp)
    (sample sample2 : ℚ)
    (hretry : pol.retry_statuses.contains r.status = true)
    (hatt : attempt < pol.max_attempts)
    (hrespect : pol.respect_retry_after = true)
    (hra : r.retryAfter = RAHeader.seconds 5) :
    retry_step pol attempt r.status (some r) sample = RetryDecision.retry (attempt + 1) 5
    ∧ ∀ r2 : Resp, r2.status = r.status → retry_after_seconds r2.retryAfter = none →
        retry_step pol attempt r2.status (some r2) sample2
          = RetryDecision.retry (attempt + 1) (backoff_sleep pol attempt sample2) := by
  have hnot : ¬ pol.max_attempts ≤ attempt := Nat.not_le.mpr hatt
  have hmem : r.status ∈ pol.retry_statuses := by simpa using hretry
  constructor
  · simp [retry_step, hretry, hmem, hnot, hrespect, hra, retry_after_seconds]
  · intro r2 hs hnone
    simp [retry_step, hs, hretry, hmem, hnot, hrespect, hnone]

/-- Claim C1, witness: default policy, attempt 1 of 4, status 429. -/
theorem retry_after_precedence_witness :
    retry_step {} 1 429 (some { status := 429, retryAfter := RAHeader.seconds 5 }) 0
      = RetryDecision.retry 2 5
    ∧ retry_step {} 1 429 (some ({ status := 429 } : Resp)) 0
      = RetryDecision.retry 2 (backoff_sleep {} 1 0) := by
  have h := retry_after_precedence {} 1 { status := 429, retryAfter := RAHeader.seconds 5 } 0 0
    (by decide) (by decide) rfl rfl
  exact ⟨h.1, h.2 { status := 429 } rfl rfl⟩

/-- Helper: when the refilled token count reaches 1, `acquire` consumes a
token and returns a zero wait. -/
theorem tb_acquire_zero (tb : TokenBucket) (now : ℚ)
    (h : 1 ≤ min tb.capacity (tb.tokens + max 0 (now - tb.last_ts) * tb.rate_per_sec)) :
    tb.acquire now
      = ({ tb with
            tokens := min tb.capacity (tb.tokens + max 0 (now - tb.last_ts) * tb.rate_per_sec) - 1,
            last_ts := now }, 0) := by
  unfold TokenBucket.acquire
  simp [h]

/-- Helper: from any nonnegative token level, calls spaced at least `1/rate`
apart always refill at least one full token, so every wait is zero. -/
theorem tb_run_zero (rate cap : ℚ) (hrate : 0 < rate) (hcap : 1 ≤ cap) :
    ∀ (ts : List ℚ) (tb : TokenBucket), tb.rate_per_sec = rate → tb.capacity = cap →
      0 ≤ tb.tokens →
      List.Chain (fun a b => a + 1/rate ≤ b) tb.last_ts ts →
      tb.runCalls ts = List.replicate ts.length 0 := by
  intro ts
  induction ts with
  | nil => intro tb _ _ _ _; rfl
  | cons t ts2 ih =>
    intro tb hr hc htok hch
    obtain ⟨h1, h2⟩ := List.chain_cons.mp hch
    have helapsed : (1 : ℚ)/rate ≤ max 0 (t - tb.last_ts) :=
      le_max_of_le_right (by linarith)
    have hmul : (1 : ℚ) ≤ max 0 (t - tb.last_ts) * rate := by
      have h0 : (1/rate) * rate = 1 := div_mul_cancel₀ 1 (ne_of_gt hrate)
      calc (1 : ℚ) = (1/rate) * rate := h0.symm
        _ ≤ max 0 (t - tb.last_ts) * rate :=
            mul_le_mul_of_nonneg_right helapsed (le_of_lt hrate)
    have htok1 : 1 ≤ min tb.capacity (tb.tokens + max 0 (t - tb.last_ts) * tb.rate_per_sec) := by
      rw [hr, hc]
      exact le_min hcap (by linarith)
    simp only [TokenBucket.runCalls]
    rw [tb_acquire_zero tb t htok1]
    simp only [List.length_cons, List.replicate_succ]
    refine congrArg (List.cons 0) ?_
    refine ih _ hr hc ?_ ?_
    · have := htok1
      simp only []
      linarith
    · simpa using h2

/-- Claim C7: a token bucket with positive rate, capacity at least 1 and a
full start returns a zero wait on every call of any sequence spaced at
least `1/rate` apart; and whenever the refilled token level is below 1
(the bucket is exhausted), `acquire` returns exactly
`(1 - tokens) / rate`, the time to accumulate the missing fraction
(provided the rate is at least the `1e-9` guard of the source). -/
theorem token_bucket_conservation (rate cap c0 : ℚ) (ts : List ℚ)
    (hrate : 0 < rate) (hcap : 1 ≤ cap)
    (hgap : ts.Chain' (fun a b => a + 1/rate ≤ b)) :
    (TokenBucket.init rate cap true c0).runCalls ts = List.replicate ts.length 0
    ∧ ∀ (tb : TokenBucket) (now : ℚ),
        min tb.capacity (tb.tokens + max 0 (now - tb.last_ts) * tb.rate_per_sec) < 1 →
        1/1000000000 ≤ tb.rate_per_sec →
        (tb.acquire now).2
          = (1 - min tb.capacity (tb.tokens + max 0 (now - tb.last_ts) * tb.rate_per_sec))
            / tb.rate_per_sec := by
  constructor
  · have hinit : TokenBucket.init rate cap true c0 = ⟨rate, cap, cap, c0⟩ := by
      unfold TokenBucket.init
      simp
    rw [hinit]
    cases ts with
    | nil => rfl
    | cons t ts2 =>
      have hch : List.Chain (fun a b => a + 1/rate ≤ b) t ts2 := hgap
      have htok1 : 1 ≤ min (⟨rate, cap, cap, c0⟩ : TokenBucket).capacity
          ((⟨rate, cap, cap, c0⟩ : TokenBucket).tokens
            + max 0 (t - (⟨rate, cap, cap, c0⟩ : TokenBucket).last_ts)
              * (⟨rate, cap, cap, c0⟩ : TokenBucket).rate_per_sec) := by
        simp only []
        refine le_min hcap ?_
        have hnn : 0 ≤ max 0 (t - c0) * rate :=
          mul_nonneg (le_max_left 0 (t - c0)) (le_of_lt hrate)
        linarith
      simp only [TokenBucket.runCalls]
      rw [tb_acquire_zero _ t htok1]
      simp only [List.length_cons, List.replicate_succ]
      refine congrArg (List.cons 0) ?_
      refine tb_run_zero rate cap hrate hcap ts2 _ rfl rfl ?_ ?_
      · have := htok1
        simp only []
        linarith
      · simpa using hch
  · intro tb now h1 h2
    have hnle : ¬ (1 ≤ min tb.capacity (tb.tokens + max 0 (now - tb.last_ts) * tb.rate_per_sec)) :=
      not_le.mpr h1
    have hpos : (0 : ℚ) < tb.rate_per_sec := lt_of_lt_of_le (by norm_num) h2
    have hw : 0 ≤ (1 - min tb.capacity (tb.tokens + max 0 (now - tb.last_ts) * tb.rate_per_sec))
        / tb.rate_per_sec := by
      refine div_nonneg ?_ (le_of_lt hpos)
      linarith
    simp only [TokenBucket.acquire, hnle, if_false, max_eq_left h2]
    exact max_eq_right hw

/-- Claim C7, witness: rate 1, capacity 2, calls at 0, 1, 2 all wait 0; an
exhausted bucket (0 tokens, no elapsed time) returns the full deficit 1/rate. -/
theorem token_bucket_conservation_witness :
    (TokenBucket.init 1 2 true 0).runCalls [0, 1, 2] = List.replicate 3 0
    ∧ ((TokenBucket.mk 1 2 0 0).acquire 0).2 = 1 := by
  have h := token_bucket_conservation 1 2 0 [0, 1, 2] (by norm_num) (by norm_num)
    (by norm_num [List.chain'_cons, List.chain'_singleton])
  refine ⟨h.1, ?_⟩
  have h2 := h.2 ⟨1, 2, 0, 0⟩ 0 (by norm_num) (by norm_num)
  rw [h2]
  norm_num

/-- Helper: wrapping always produces a dict. -/
theorem wrapRecord_isObj (j : J) : (wrapRecord j).isObj = true := by
  unfold wrapRecord
  split
  · assumption
  · rfl

/-- Helper: members of a wrapped batch are dicts. -/
theorem mem_map_wrap {l : List J} {j : J} (h : j ∈ l.map wrapRecord) : j.isObj = true := by
  obtain ⟨x, _, rfl⟩ := List.mem_map.mp h
  exact wrapRecord_isObj x

/-- Helper: every record yielded by any run of the batch loop is a dict. -/
theorem paginate_loop_yields_obj (prof : PagProfile) (env : PagEnv) (em : String) :
    ∀ (fuel batch_idx : ℕ) (st : PagState) (j : J),
      j ∈ (paginate_loop prof env em fuel batch_idx st).yields → j.isObj = true := by
  intro fuel
  induction fuel with
  | zero =>
    intro b st j hj
    simp [paginate_loop] at hj
  | succ rem ih =>
    intro b st j hj
    simp only [paginate_loop] at hj
    split at hj
    · simp at hj
    · split at hj
      · split at hj <;> simp at hj
      · split at hj
        · simp at hj
        · split at hj
          · simp at hj
          · split at hj
            · simp at hj
            · split at hj
              · exact mem_map_wrap hj
              · split at hj
                · exact mem_map_wrap hj
                · rcases List.mem_append.mp hj with hl | hr
                  · exact mem_map_wrap hl
                  · exact ih _ _ j hr

/-- Claim C10: every record yielded by the pagination stream is a dict —
non-dict extracted items are wrapped as a one-field dict under "value"
before being yielded. -/
theorem paginate_yields_are_dicts (prof : PagProfile) (env : PagEnv)
    (state : Option PagState) :
    ∀ j ∈ (paginate_items prof env state).yields, j.isObj = true := by
  intro j hj
  exact paginate_loop_yields_obj prof env _ _ _ _ j hj

/-- Claim C10, witness: a scalar item extracted from a healthy JSON page is
yielded wrapped, and the wrapped record is a dict. -/
theorem paginate_yields_are_dicts_witness :
    (J.obj [("value", J.s "x")]).isObj = true := by
  refine paginate_yields_are_dicts profOneShot envScalar none (J.obj [("value", J.s "x")]) ?_
  show J.obj [("value", J.s "x")] ∈ (paginate_items profOneShot envScalar none).yields
  exact List.Mem.head _

/-- Claim C4, counterexample: a 200 response whose JSON body self-reports
failure (`success:false`, so `detect_soft_error` fires) and whose text
carries a CAPTCHA marker (so `classify_block` WOULD match, returning
`captcha`) makes the JSON-mode pagination loop halt with no block event at
all — the runtime returns before ever calling the Block Classifier on a
2xx response, emitting no events and yielding no records. -/
theorem soft_error_no_block_event_cex :
    paginate_items profJson3 envSoft none = ⟨[], []⟩
    ∧ detect_soft_error (J.obj [("success", J.b false)]) = some "success=false"
    ∧ classify_block softResp = some "captcha" := by
  exact ⟨rfl, rfl, rfl⟩

/-- Claim C4, amended: in JSON extraction mode, a batch whose response is
in the success range but whose JSON body is detected as a soft error halts
the stream immediately and silently: no record is yielded, no checkpoint
is emitted, and no block event is emitted (the Block Classifier runs only
on non-2xx outcomes); the soft-error page is not passed to the extractor,
so it is also never treated as a valid page of records. -/
theorem soft_error_halts_silently (prof : PagProfile) (env : PagEnv)
    (state : Option PagState) (resp : Resp) (raw : String) (lj : Bool) (j : J) (msg : String)
    (hmode : prof.mode = "json")
    (hfetch : ∀ b s2, env.fetch b s2 = (some resp, none))
    (h2xx : 200 ≤ resp.status ∧ resp.status < 400)
    (hbody : resp.body = Body.txt raw lj (some j))
    (hsoft : detect_soft_error j = some msg) :
    paginate_items prof env state = ⟨[], []⟩ := by
  unfold paginate_items
  rw [hmode]
  cases hmb : prof.pagination.max_batches with
  | zero => rfl
  | succ rem =>
    simp only [paginate_loop, hfetch, safe_read_json, hbody, hsoft]
    simp [h2xx.1, h2xx.2, safe_read_json, hbody, hsoft]

/-- Claim C4, witness for the amended theorem at the concrete soft-error
response. -/
theorem soft_error_halts_silently_witness :
    paginate_items profJson3 envSoft none = ⟨[], []⟩ :=
  soft_error_halts_silently profJson3 envSoft none softResp "" true
    (J.obj [("success", J.b false)]) "success=false" rfl (fun _ _ => rfl)
    (by norm_num [softResp]) rfl rfl

/-- Helper: `chainPre` splits over an append, the second half starting from
the last event of the first. -/
theorem chainPre_append (tgt pre : Ev) (m : List Ev) :
    ∀ (l : List Ev) (p : Ev),
      chainPre tgt pre p (l ++ m)
        = (chainPre tgt pre p l && chainPre tgt pre (l.getLastD p) m) := by
  intro l
  induction l with
  | nil => intro p; simp [chainPre, List.getLastD]
  | cons e t ih =>
    intro p
    show ((!(e == tgt) || (p == pre)) && chainPre tgt pre e (t ++ m))
        = (((!(e == tgt) || (p == pre)) && chainPre tgt pre e t)
            && chainPre tgt pre ((e :: t).getLastD p) m)
    rw [ih e, List.getLastD_cons, Bool.and_assoc]

/-- Helper: appending one event that is not the target preserves the
preceded-by property. -/
theorem precededBy_append_one (tgt pre : Ev) (l : List Ev) (e : Ev)
    (he : (e == tgt) = false)
    (h : precededBy tgt pre l = true) :
    precededBy tgt pre (l ++ [e]) = true := by
  cases l with
  | nil => simp [precededBy, chainPre, he]
  | cons a t =>
    simp only [precededBy, List.cons_append, Bool.and_eq_true] at h ⊢
    obtain ⟨h1, h2⟩ := h
    refine ⟨h1, ?_⟩
    rw [chainPre_append]
    simp [chainPre, he, h2]

/-- Helper: appending an adjacent `pre, tgt` pair preserves the
preceded-by property (for a target distinct from its guard). -/
theorem precededBy_append_two (tgt pre : Ev) (l : List Ev)
    (hpre : (pre == tgt) = false)
    (h : precededBy tgt pre l = true) :
    precededBy tgt pre (l ++ [pre, tgt]) = true := by
  cases l with
  | nil => simp [precededBy, chainPre, hpre]
  | cons a t =>
    simp only [precededBy, List.cons_append, Bool.and_eq_true] at h ⊢
    obtain ⟨h1, h2⟩ := h
    refine ⟨h1, ?_⟩
    rw [chainPre_append]
    simp [chainPre, hpre, h2]

/-- Helper: a cache write never breaks acquire-before-request adjacency. -/
theorem save_events_precededBy (cfg : EngineCfg) (r : Resp) (l : List Ev)
    (h : precededBy Ev.phys Ev.acquire l = true) :
    precededBy Ev.phys Ev.acquire (l ++ save_events cfg r) = true := by
  unfold save_events
  split
  · exact precededBy_append_one _ _ l Ev.cacheSave rfl h
  · simpa using h

/-- Helper: the shared sec-headers/post-priming sub-request keeps every
session request adjacent to its limiter acquire. -/
theorem sec_fallback_step_precededBy (cfg : EngineCfg) (env : Env) (st : StageSt)
    (h : precededBy Ev.phys Ev.acquire st.trace = true) :
    precededBy Ev.phys Ev.acquire (sumTrace (sec_fallback_step cfg env st)) = true := by
  have hpair := precededBy_append_two Ev.phys Ev.acquire st.trace rfl h
  simp only [sec_fallback_step]
  split
  · split
    · simp only [sumTrace, success_result]
      exact save_events_precededBy _ _ _ hpair
    · simpa [sumTrace] using hpair
  · simpa [sumTrace] using hpair
  · simpa [sumTrace] using hpair

/-- Helper: stage 1 preserves acquire-before-request adjacency. -/
theorem stage1_precededBy (cfg : EngineCfg) (env : Env) (st : StageSt)
    (h : precededBy Ev.phys Ev.acquire st.trace = true) :
    precededBy Ev.phys Ev.acquire (sumTrace (stage1 cfg env st)) = true := by
  simp only [stage1]
  repeat' split
  all_goals first
    | exact sec_fallback_step_precededBy cfg env st h
    | simpa [sumTrace] using h

/-- Helper: stage 2 preserves acquire-before-request adjacency (its browser
navigations are not session requests). -/
theorem stage2_precededBy (cfg : EngineCfg) (env : Env) (hint0 : Option String) (st : StageSt)
    (h : precededBy Ev.phys Ev.acquire st.trace = true) :
    precededBy Ev.phys Ev.acquire (sumTrace (stage2 cfg env hint0 st)) = true := by
  have hprime : precededBy Ev.phys Ev.acquire (st.trace ++ [Ev.primeNav]) = true :=
    precededBy_append_one _ _ _ _ rfl h
  have hrender : precededBy Ev.phys Ev.acquire (st.trace ++ [Ev.renderNav]) = true :=
    precededBy_append_one _ _ _ _ rfl h
  have hprimeStep :=
    sec_fallback_step_precededBy cfg env { st with trace := st.trace ++ [Ev.primeNav] } hprime
  simp only [stage2]
  repeat' split
  all_goals first
    | exact hprimeStep
    | (simp only [sumTrace, success_result]
       exact save_events_precededBy _ _ _ hrender)
    | simpa [sumTrace] using hprime
    | simpa [sumTrace] using hrender
    | simpa [sumTrace] using h

/-- Helper: stage 3 preserves acquire-before-request adjacency. -/
theorem stage3_precededBy (cfg : EngineCfg) (env : Env) (st : StageSt)
    (h : precededBy Ev.phys Ev.acquire st.trace = true) :
    precededBy Ev.phys Ev.acquire (sumTrace (stage3 cfg env st)) = true := by
  simp only [stage3]
  repeat' split
  all_goals first
    | exact sec_fallback_step_precededBy cfg env st h
    | simpa [sumTrace] using h

/-- Helper: the attempt loop keeps every session request adjacent to its
limiter acquire, whatever the script and configuration. -/
theorem engine_loop_precededBy (cfg : EngineCfg) (env : Env) :
    ∀ (rem attempt : ℕ) (lastErr : Option String) (idx : ℕ) (trace : List Ev),
      precededBy Ev.phys Ev.acquire trace = true →
      precededBy Ev.phys Ev.acquire (engine_loop cfg env rem attempt lastErr idx trace).trace
        = true := by
  intro rem
  induction rem with
  | zero =>
    intro a le idx tr h
    simpa [engine_loop] using h
  | succ rem ih =>
    intro a le idx tr h
    have hpair := precededBy_append_two Ev.phys Ev.acquire tr rfl h
    simp only [engine_loop]
    split
    · split
      · simpa using hpair
      · exact ih _ _ _ _ (precededBy_append_one _ _ _ _ rfl hpair)
    · split
      · simpa using hpair
      · exact ih _ _ _ _ (precededBy_append_one _ _ _ _ rfl hpair)
    · rename_i r heq
      split
      · simp only [success_result]
        exact save_events_precededBy _ _ _ hpair
      · cases hs1 : stage1 cfg env ⟨some r, r.status, le, idx + 1, tr ++ [Ev.acquire, Ev.phys]⟩ with
        | inl res =>
          dsimp only
          have hx := stage1_precededBy cfg env
            ⟨some r, r.status, le, idx + 1, tr ++ [Ev.acquire, Ev.phys]⟩ hpair
          rw [hs1] at hx
          simpa [sumTrace] using hx
        | inr st1 =>
          dsimp only
          have hx1 := stage1_precededBy cfg env
            ⟨some r, r.status, le, idx + 1, tr ++ [Ev.acquire, Ev.phys]⟩ hpair
          rw [hs1] at hx1
          simp only [sumTrace] at hx1
          cases hs2 : stage2 cfg env (block_hint r) st1 with
          | inl res =>
            dsimp only
            have hx := stage2_precededBy cfg env (block_hint r) st1 hx1
            rw [hs2] at hx
            simpa [sumTrace] using hx
          | inr st2 =>
            dsimp only
            have hx2 := stage2_precededBy cfg env (block_hint r) st1 hx1
            rw [hs2] at hx2
            simp only [sumTrace] at hx2
            cases hs3 : stage3 cfg env st2 with
            | inl res =>
              dsimp only
              have hx := stage3_precededBy cfg env st2 hx2
              rw [hs3] at hx
              simpa [sumTrace] using hx
            | inr st3 =>
              dsimp only
              have hx3 := stage3_precededBy cfg env st2 hx2
              rw [hs3] at hx3
              simp only [sumTrace] at hx3
              cases retry_step cfg.pol a st3.sc st3.resp (env.backoffSample a) with
              | finalReturn rsp err =>
                dsimp only
                cases rsp with
                | some rr => exact save_events_precededBy _ _ _ hx3
                | none => simpa using hx3
              | retry nxt wait =>
                dsimp only
                exact ih _ _ _ _ (precededBy_append_one _ _ _ _ rfl hx3)
              | crash => exact hx3

/-- Claim C5, amended: the per-domain limiter's `acquire` is called (and
its wait slept) immediately before every physical request issued through
the HTTP session — the initial request of every attempt, every
sec-headers fallback sub-request and the retry after cookie priming — in
every configuration and for every scripted environment.  The browser
navigations of the Playwright stage (cookie priming and the full render)
are not preceded by an `acquire` (see the counterexample). -/
theorem acquire_before_every_session_request (cfg : EngineCfg) (env : Env) :
    precededBy Ev.phys Ev.acquire (engine_request cfg env).trace = true := by
  unfold engine_request
  split
  · cases env.cacheHit <;> rfl
  · exact engine_loop_precededBy cfg env _ _ _ _ _ rfl

/-- Claim C5, counterexample: with the render strategy enabled, a blocked
403 leads the engine to issue the full browser render with no limiter
`acquire` before it — the trace is acquire, session request, render, and
the render is immediately preceded by the session request, not by an
acquire. -/
theorem render_without_acquire_cex :
    (engine_request cfgRender envRender).trace = [Ev.acquire, Ev.phys, Ev.renderNav]
    ∧ precededBy Ev.renderNav Ev.acquire [Ev.acquire, Ev.phys, Ev.renderNav] = false := by
  exact ⟨rfl, rfl⟩

/-- Claim C6, counterexample: limiter `N = 1`, `W = 10`, calls at times
0, 1, 2.  The waits are 0, 9, 8, so (the engine sleeps the returned wait
and then issues the request) the admission times are 0, 10, 10 — the
trailing 10-second window `[0.5, 10.5]` admits two calls, exceeding
`N = 1`: calls that receive a positive wait are never recorded in the
window, so the bound fails under bursts. -/
theorem sliding_window_admits_burst_cex :
    ((SlidingWindow.mk 1 10 []).runCalls [0, 1, 2]).map (fun p => p.1 + p.2) = [0, 10, 10]
    ∧ 1 < windowCount 10 [0, 10, 10] (1/2) := by
  constructor
  · norm_num [SlidingWindow.runCalls, SlidingWindow.acquire, List.filter_cons, List.min?]
  · norm_num [windowCount, List.filter_cons]

/-- Helper: evicting with a later cutoff absorbs an earlier eviction. -/
theorem filter_window_sub (W tl t : ℚ) (hle : tl ≤ t) (acc : List ℚ) :
    (acc.filter (fun s => decide (tl - W ≤ s))).filter (fun s => decide (t - W ≤ s))
      = acc.filter (fun s => decide (t - W ≤ s)) := by
  rw [List.filter_filter]
  apply List.filter_congr
  intro x _
  by_cases h : t - W ≤ x
  · have h2 : tl - W ≤ x := le_trans (by linarith) h
    simp [h, h2]
  · simp [h]

/-- Helper: the times inside a window `[a, a + W]` reaching up to `t` are
among the times surviving the eviction cutoff `t - W`. -/
theorem window_le_kept (W a t : ℚ) (hat : t ≤ a + W) (acc : List ℚ) :
    (acc.filter (fun s => decide (a ≤ s) && decide (s ≤ a + W))).length
      ≤ (acc.filter (fun s => decide (t - W ≤ s))).length := by
  apply List.Sublist.length_le
  apply List.monotone_filter_right
  intro x hx
  simp only [Bool.and_eq_true, decide_eq_true_eq] at hx ⊢
  obtain ⟨h1, h2⟩ := hx
  linarith

/-- Helper invariant: running the limiter from a state whose stamps are
exactly the previously recorded times still inside the window keeps the
recorded times `W`-window-bounded by `N`. -/
theorem sw_stamped_inv (N : ℕ) (W : ℚ) (hW : 0 ≤ W) :
    ∀ (ts : List ℚ) (acc : List ℚ) (tlast : ℚ),
      (∀ s ∈ acc, s ≤ tlast) →
      windowBound N W acc →
      List.Chain (· ≤ ·) tlast ts →
      windowBound N W
        (acc ++ (SlidingWindow.mk N W
          (acc.filter (fun s => decide (tlast - W ≤ s)))).stampedTimes ts) := by
  intro ts
  induction ts with
  | nil =>
    intro acc tlast hle hbound _
    simpa [SlidingWindow.stampedTimes] using hbound
  | cons t ts2 ih =>
    intro acc tlast hle hbound hch
    obtain ⟨htl, hch2⟩ := List.chain_cons.mp hch
    have hle2 : ∀ s ∈ acc, s ≤ t := fun s hs => le_trans (hle s hs) htl
    simp only [SlidingWindow.stampedTimes, SlidingWindow.acquire]
    rw [filter_window_sub W tlast t htl acc]
    split
    · rename_i hlt
      have htW : t - W ≤ t := by linarith
      have hfil : (acc ++ [t]).filter (fun s => decide (t - W ≤ s))
          = acc.filter (fun s => decide (t - W ≤ s)) ++ [t] := by
        simp [List.filter_append, htW, hW]
      have hle3 : ∀ s ∈ acc ++ [t], s ≤ t := by
        intro s hs
        rcases List.mem_append.mp hs with h | h
        · exact hle2 s h
        · rw [List.mem_singleton.mp h]
      have hbound2 : windowBound N W (acc ++ [t]) := by
        intro a
        unfold windowCount
        rw [List.filter_append]
        rw [List.length_append]
        by_cases hin : (decide (a ≤ t) && decide (t ≤ a + W)) = true
        · have hat : t ≤ a + W := by
            simp only [Bool.and_eq_true, decide_eq_true_eq] at hin
            exact hin.2
          have hcnt := window_le_kept W a t hat acc
          have hone : (List.filter (fun s => decide (a ≤ s) && decide (s ≤ a + W)) [t]).length
              = 1 := by
            simp [List.filter_singleton, hin]
          rw [hone]
          omega
        · simp only [Bool.not_eq_true] at hin
          have hzero : (List.filter (fun s => decide (a ≤ s) && decide (s ≤ a + W)) [t]).length
              = 0 := by
            simp [List.filter_singleton, hin]
          rw [hzero]
          have := hbound a
          unfold windowCount at this
          omega
      have hstep := ih (acc ++ [t]) t hle3 hbound2 hch2
      rw [hfil] at hstep
      simpa using hstep
    · exact ih acc t hle2 hbound hch2

/-- Claim C6, amended: for a limiter started empty and any nondecreasing
sequence of call times, the calls the limiter records (those admitted
immediately with a zero wait) are window-bounded — no window of `W`
seconds contains more than `N` of them.  Calls answered with a positive
wait are not recorded, and the full admission stream can exceed `N` in a
window (see the counterexample). -/
theorem sliding_window_stamped_bound (N : ℕ) (W : ℚ) (hW : 0 ≤ W) (ts : List ℚ)
    (hsorted : ts.Chain' (· ≤ ·)) :
    windowBound N W ((SlidingWindow.mk N W []).stampedTimes ts) := by
  cases ts with
  | nil =>
    intro a
    simp [SlidingWindow.stampedTimes, windowCount]
  | cons t ts2 =>
    have hch : List.Chain (· ≤ ·) t (t :: ts2) :=
      List.chain_cons.mpr ⟨le_refl t, hsorted⟩
    have h := sw_stamped_inv N W hW (t :: ts2) [] t (by simp)
      (by intro a; simp [windowCount]) hch
    simpa using h

/-- Claim C6, witness for the amended theorem: the recorded times of the
burst pattern stay within the bound. -/
theorem sliding_window_stamped_bound_witness :
    windowCount 10 ((SlidingWindow.mk 1 10 []).stampedTimes [0, 1, 2]) 0 ≤ 1 :=
  sliding_window_stamped_bound 1 10 (by norm_num) [0, 1, 2]
    (by norm_num [List.chain'_cons, List.chain'_singleton]) 0
